import Mathlib

/-!
Verification development for the caribou-data-collection scrapers.

The definitions below are a shallow embedding, in Lean, of the Python code in
`src/canada/britishcolumbia/bc_scraper.py`, `src/india/india_scraper.py` and
`src/utils/io.py`.  Pure string manipulation (split, strip, title, replace,
regex postal-code split) is translated function by function; browser state is
passed explicitly as page/option data; file effects are modelled as explicit
line lists.
-/

/-! ## Python string primitives -/

/-- Characters removed by Python 2 `str.strip()`. -/
def pySpaceChar (c : Char) : Bool :=
  c == ' ' || c == '\t' || c == '\n' || c == '\r' || c == '\x0b' || c == '\x0c'

/-- Python `s.strip()`: drop leading and trailing whitespace. -/
def pyStrip (s : String) : String :=
  ⟨((s.data.dropWhile pySpaceChar).reverse.dropWhile pySpaceChar).reverse⟩

/-- Python `s.isspace()`: nonempty and all whitespace. -/
def pyIsSpaceStr (s : String) : Bool :=
  !s.data.isEmpty && s.data.all pySpaceChar

/-- Worker for Python `str.title()`: the flag records whether the previous
character was alphabetic. -/
def pyTitleL : Bool → List Char → List Char
  | _, [] => []
  | prev, c :: cs =>
    if c.isAlpha then (if prev then c.toLower else c.toUpper) :: pyTitleL true cs
    else c :: pyTitleL false cs

/-- Python `s.title()` (ASCII semantics of Python 2 `str`). -/
def pyTitle (s : String) : String := ⟨pyTitleL false s.data⟩

/-- Python `s.lower()` (ASCII). -/
def pyLower (s : String) : String := ⟨s.data.map Char.toLower⟩

/-- Python `s.encode('ascii', 'ignore')`: drop non-ASCII characters. -/
def pyEncodeAscii (s : String) : String := ⟨s.data.filter (fun c => c.toNat < 128)⟩

/-- Python slicing `s[n:]`. -/
def pyDrop (n : Nat) (s : String) : String := ⟨s.data.drop n⟩

/-- Python `s.endswith(',')` combined with `s[:-1]`, as used on addresses. -/
def stripTrailingComma (s : String) : String :=
  if s.data.getLast? = some ',' then ⟨s.data.dropLast⟩ else s

/-- Prepend a character onto the first chunk of a split result. -/
def consHead (c : Char) : List (List Char) → List (List Char)
  | [] => [[c]]
  | f :: r => (c :: f) :: r

/-- Python `s.split(sep)` for a single-character separator `sep`
(keeps empty chunks, like Python). -/
def splitChL (sep : Char) : List Char → List (List Char)
  | [] => [[]]
  | c :: cs => if c = sep then [] :: splitChL sep cs else consHead c (splitChL sep cs)

/-- String-level wrapper for `splitChL` with separator `','`. -/
def pySplitComma (s : String) : List String := (splitChL ',' s.data).map String.mk

/-- String-level wrapper for `splitChL` with separator `'\n'`. -/
def pySplitNL (s : String) : List String := (splitChL '\n' s.data).map String.mk

/-- Python `s.split(':')[1]`, the second colon-separated chunk when it exists. -/
def pyColonField (s : String) : Option String :=
  ((splitChL ':' s.data).map String.mk)[1]?

/-- Test whether the list starts with the three-character separator `" - "`. -/
def dashAt : List Char → Bool
  | c1 :: c2 :: c3 :: _ => c1 == ' ' && c2 == '-' && c3 == ' '
  | _ => false

/-- Test whether `" - "` occurs anywhere in the list. -/
def hasDashL : List Char → Bool
  | [] => false
  | c :: cs => dashAt (c :: cs) || hasDashL cs

/-- Python `s.split(' - ')`: split on each non-overlapping occurrence of the
three-character separator, scanning left to right. -/
def splitDashL : List Char → List (List Char)
  | [] => [[]]
  | [c] => [[c]]
  | [c1, c2] => [[c1, c2]]
  | c1 :: c2 :: c3 :: cs =>
    if c1 == ' ' && c2 == '-' && c3 == ' ' then [] :: splitDashL cs
    else consHead c1 (splitDashL (c2 :: c3 :: cs))

/-- Join chunks with a comma between consecutive chunks, as produced by the
CSV-line format string. -/
def joinCommaL : List (List Char) → List Char
  | [] => []
  | [a] => a
  | a :: b :: rest => a ++ ',' :: joinCommaL (b :: rest)

/-- String-level comma join. -/
def strJoinComma (fs : List String) : String := ⟨joinCommaL (fs.map String.data)⟩

/-! ## Data model -/

/-- One `<option>` of a dropdown: displayed text and form value. -/
structure DropOpt where
  text : String
  value : String
deriving DecidableEq

/-- The contact record assembled by the BC scraper
(field names are the local variables of `Scraper.__extract_contact_info`). -/
structure BCRecord where
  school : String
  name : String
  address : String
  city : String
  province : String
  postal_code : String
  schoolboard : String
  contact : String
  phone : String
  position : String
  email : String
  timezone : String
  country : String
deriving DecidableEq

/-- The contact record assembled by the India scraper
(field names are the local variables of `Scraper.__scrape_schools`). -/
structure IndiaRecord where
  school_id : String
  school_name : String
  address : String
  city : String
  state : String
  postal_code : String
  schoolboard : String
  contact_name : String
  phone : String
  contact_position : String
  email : String
  timezone : String
  country : String
deriving DecidableEq

/-- The DOM data one BC school page exposes to `__extract_contact_info`:
the `href` of the mailto anchor and the text of the two table columns. -/
structure BCPage where
  emailHref : String
  leftColText : String
  rightColText : String
deriving DecidableEq

/-! ## BC scraper: dropdown enumeration (`__scrape_cities`, `__scrape_schools_in_city`) -/

/-- Line 97: `cities = [option.get_attribute('value') for option in city_list.options]`. -/
def bcCityValues (opts : List DropOpt) : List String := opts.map (·.value)

/-- Lines 102-103: `for i, city in enumerate(cities): if i == 0: continue ...`.
The value is the sequence of cities actually processed, in processing order. -/
def bcProcessedCities (opts : List DropOpt) : List String :=
  (((bcCityValues opts).enum).filter (fun p => p.1 ≠ 0)).map (·.2)

/-- Line 122: `schools = [(option.text.strip(), option.get_attribute('value')) ...]`. -/
def bcSchoolPairs (opts : List DropOpt) : List (String × String) :=
  opts.map (fun o => (pyStrip o.text, o.value))

/-- Lines 130-131: school loop skipping index 0; the schools actually processed. -/
def bcProcessedSchools (opts : List DropOpt) : List (String × String) :=
  (((bcSchoolPairs opts).enum).filter (fun p => p.1 ≠ 0)).map (·.2)

/-! ## BC scraper: city-list lookup (lines 85-92)

The `try` block makes a single `find_element_by_id` call; both `except`
arms log at critical severity.  There is no loop, no sleep and no retry
around the lookup.  The trace records attempts made, backoff delays slept
between attempts, whether a critical message was logged, and the options
obtained. -/

/-- Outcome of the single `find_element_by_id('citySelect')`/`Select` call. -/
inductive BCLookupOutcome
  | ok (options : List DropOpt)
  | staleElement
  | unexpectedTag
deriving DecidableEq

/-- Observable trace of one city-list lookup. -/
structure LookupTrace where
  attempts : Nat
  backoffDelays : List Nat
  criticalLogged : Bool
  options : Option (List DropOpt)
deriving DecidableEq

/-- Lines 85-92 of `bc_scraper.py`: one attempt; on either exception the
scraper logs `logging.critical` and does not retry. -/
def bcCitySelectLookup : BCLookupOutcome → LookupTrace
  | .ok opts => ⟨1, [], false, some opts⟩
  | .staleElement => ⟨1, [], true, none⟩
  | .unexpectedTag => ⟨1, [], true, none⟩

/-! ## BC scraper: field parsing (`__extract_contact_info`, lines 176-190) -/

/-- Lines 177-180 applied to one composite address line:
`full_address = line.split(',')`, `address = full_address[0].strip()`,
`postal_code = full_address[3].strip()`, and on `IndexError` both fields
become `'N/A'`. -/
def bcParseAddress (line : String) : String × String :=
  let parts := pySplitComma line
  match parts[3]? with
  | some p3 => (pyStrip (parts.headD ""), pyStrip p3)
  | none => ("N/A", "N/A")

/-- Lines 176-180 including the `left_col_data[2]` access: a missing third
line also raises `IndexError`, yielding the same sentinels. -/
def bcAddressFields (leftLines : List String) : String × String :=
  match leftLines[2]? with
  | some l => bcParseAddress l
  | none => ("N/A", "N/A")

/-- Lines 182-185 applied to one composite contact line:
`contact_person = line.split(' - ')`, `position = contact_person[0].strip()`,
`contact = contact_person[1].strip()`, and on `IndexError` the pair becomes
`('N/A', '')`. -/
def bcParseContact (line : String) : String × String :=
  let parts := (splitDashL line.data).map String.mk
  match parts[1]? with
  | some p1 => (pyStrip (parts.headD ""), pyStrip p1)
  | none => ("N/A", "")

/-- Lines 181-185 including the `left_col_data[3]` access. -/
def bcContactFields (leftLines : List String) : String × String :=
  match leftLines[3]? with
  | some l => bcParseContact l
  | none => ("N/A", "")

/-- Lines 186-187: `phone = right_col_data[2].strip()`, `'null'` on `IndexError`. -/
def bcPhoneField (rightLines : List String) : String :=
  match rightLines[2]? with
  | some l => pyStrip l
  | none => "null"

/-- Lines 150-203 of `Scraper.__extract_contact_info`: the email is the
mailto `href` with the first 7 characters (`mailto:`) sliced off; when it is
empty (falsy) no record is produced, otherwise the two column texts are split
on newlines and the 13 record fields are assembled. -/
def bcExtract (schoolname cityname : String) (page : BCPage) : Option BCRecord :=
  let email := pyDrop 7 page.emailHref
  if email = "" then none
  else
    let leftLines := pySplitNL page.leftColText
    let rightLines := pySplitNL page.rightColText
    let ap := bcAddressFields leftLines
    let cp := bcContactFields leftLines
    some { school := "null", name := schoolname, address := ap.1, city := cityname,
           province := "BC", postal_code := ap.2, schoolboard := "null",
           contact := cp.2, phone := bcPhoneField rightLines, position := cp.1,
           email := email, timezone := "America/Vancouver", country := "CA" }

/-- Lines 200-203: the argument order of the `csv_file.write` format call. -/
def bcRow (r : BCRecord) : List String :=
  [r.school, r.name, r.address, r.city, r.province, r.postal_code, r.schoolboard,
   r.contact, r.phone, r.position, r.email, r.timezone, r.country]

/-- Line 200: `'{},{},{},{},{},{},{},{},{},{},{},{},{}\n'.format(...)`
(braces written here as placeholders of the Python format string). -/
def bcCsvLine (r : BCRecord) : String := strJoinComma (bcRow r) ++ "\n"

/-- Lines 199-203: the lines appended to `self.output` while processing one
school page — one CSV line when a record is extracted, nothing otherwise. -/
def bcWrittenLines (schoolname cityname : String) (page : BCPage) : List String :=
  match bcExtract schoolname cityname page with
  | some r => [bcCsvLine r]
  | none => []

/-! ## India scraper: state enumeration (`__get_states_and_values`, lines 111-123) -/

/-- Python dict assignment `d[k] = v` on an association list: replace the
value of an existing key in place, otherwise append the new pair. -/
def dictUpsert (k v : String) : List (String × String) → List (String × String)
  | [] => [(k, v)]
  | (k', v') :: rest => if k' = k then (k, v) :: rest else (k', v') :: dictUpsert k v rest

/-- The dict comprehension of lines 119-121: later duplicate keys overwrite
earlier values. -/
def pyDictOfPairs (ps : List (String × String)) : List (String × String) :=
  ps.foldl (fun d p => dictUpsert p.1 p.2 d) []

/-- Python tuple comparison on `(key, value)` pairs, as used by `sorted`. -/
def pairLe (a b : String × String) : Prop :=
  a.1 < b.1 ∨ (a.1 = b.1 ∧ a.2 ≤ b.2)

instance : DecidableRel pairLe := fun a b => by
  unfold pairLe; infer_instance

instance : IsTotal (String × String) pairLe := by
  constructor
  intro a b
  rcases lt_trichotomy a.1 b.1 with h | h | h
  · exact Or.inl (Or.inl h)
  · rcases le_total a.2 b.2 with h2 | h2
    · exact Or.inl (Or.inr ⟨h, h2⟩)
    · exact Or.inr (Or.inr ⟨h.symm, h2⟩)
  · exact Or.inr (Or.inl h)

instance : IsTrans (String × String) pairLe := by
  constructor
  intro a b c hab hbc
  rcases hab with h1 | ⟨h1, h1'⟩
  · rcases hbc with h2 | ⟨h2, _⟩
    · exact Or.inl (h1.trans h2)
    · exact Or.inl (h2 ▸ h1)
  · rcases hbc with h2 | ⟨h2, h2'⟩
    · exact Or.inl (h1 ▸ h2)
    · exact Or.inr ⟨h1.trans h2, h1'.trans h2'⟩

/-- Lines 111-123 of `india_scraper.py`: drop the junk first option, build the
dict keyed by title-cased option text with the option value as value, then
return the items sorted (an `OrderedDict` is its sorted item list).  The keys
after the dict are distinct, so any sort with Python tuple order produces the
same list as Python `sorted`. -/
def indiaStatesAndValues (opts : List DropOpt) : List (String × String) :=
  List.insertionSort pairLe
    (pyDictOfPairs ((opts.drop 1).map (fun o => (pyTitle o.text, o.value))))

/-- Line 121: the options the comprehension iterates over are exactly
`state_list.options[1:]`. -/
def indiaStateOptionsUsed (opts : List DropOpt) : List DropOpt := opts.drop 1

/-! ## India scraper: record extraction (`__scrape_schools`, lines 186-248) -/

/-- Lines 221-223: phone cleanup — remove spaces, turn commas into spaces,
strip, and substitute `'null'` for an empty or all-space result. -/
def indiaPhone (phoneCol : String) : String :=
  let p := pyStrip ⟨(phoneCol.data.filter (fun c => c != ' ')).map
    (fun c => if c = ',' then ' ' else c)⟩
  if p = "" ∨ pyIsSpaceStr p then "null" else p

/-- Test whether the list starts with a comma followed by six digits, the
pattern of the regex `(,[0-9]{6})`. -/
def postalAt : List Char → Bool
  | c :: cs => c == ',' && (cs.take 6).length == 6 && (cs.take 6).all Char.isDigit
  | [] => false

/-- Leftmost match of the regex `(,[0-9]{6})` as used by `re.split`:
returns the text before the match, the six digits, and the text after. -/
def findPostalL : List Char → Option (List Char × List Char × List Char)
  | [] => none
  | c :: cs =>
    if postalAt (c :: cs) then some ([], cs.take 6, cs.drop 6)
    else
      match findPostalL cs with
      | some (pre, d, rest) => some (c :: pre, d, rest)
      | none => none

/-- Lines 229-236: `address_list = re.split('(,[0-9]{6})', full_address)`;
`address = address_list[0].strip()` with a trailing comma removed;
`postal_code = address_list[1][1:]`, or `'N/A'` on `IndexError`. -/
def indiaParseAddress (fullAddress : String) : String × String :=
  match findPostalL fullAddress.data with
  | some (pre, d, _) => (stripTrailingComma (pyStrip ⟨pre⟩), ⟨d⟩)
  | none => (stripTrailingComma (pyStrip fullAddress), "N/A")

/-- Lines 188-236 of `Scraper.__scrape_schools` applied to one school block
(`table.text.split('\n')`).  The outer `Option` is an uncaught `IndexError`
on a malformed block; `some none` is the skip of an email-less school
(lines 215-217); `some (some r)` is an accepted record.  Field computations
follow the source order. -/
def indiaExtract (state : String) (sd : List String) : Option (Option IndiaRecord) :=
  match sd[2]? with
  | none => none
  | some nameF =>
    match pyColonField nameF with
    | none => none
    | some nameCol =>
      let school_name := pyEncodeAscii (pyTitle (pyStrip nameCol))
      match sd[6]? with
      | none => none
      | some emailF =>
        match pyColonField emailF with
        | none => none
        | some emailCol =>
          let email := pyLower (pyStrip emailCol)
          if email = "" then some none
          else
            match sd[3]? with
            | none => none
            | some contactF =>
              match pyColonField contactF with
              | none => none
              | some contactCol =>
                let contact_name := pyEncodeAscii (pyTitle (pyStrip contactCol))
                match sd[5]? with
                | none => none
                | some phoneF =>
                  match pyColonField phoneF with
                  | none => none
                  | some phoneCol =>
                    match sd[4]? with
                    | none => none
                    | some addrF =>
                      match pyColonField addrF with
                      | none => none
                      | some addrCol =>
                        let ap := indiaParseAddress (pyEncodeAscii (pyTitle addrCol))
                        some (some
                          { school_id := "null", school_name := school_name,
                            address := ap.1, city := "N/A", state := state,
                            postal_code := ap.2, schoolboard := "null",
                            contact_name := contact_name,
                            phone := indiaPhone phoneCol,
                            contact_position := "Principal", email := email,
                            timezone := "Asia/Kolkata", country := "IN" })

/-- Lines 238-248 of `india_scraper.py`: the block that would append the
record to `self.output` is commented out (a triple-quoted `TODO` string), so
processing a school block appends no line to the output file. -/
def indiaWrittenLines (_state : String) (_sd : List String) : List String := []

/-! ## utils/io.py: `remove_dupes` (lines 66-74) -/

/-- Test whether the list starts with `".csv"`. -/
def csvAt : List Char → Bool
  | c1 :: c2 :: c3 :: c4 :: _ => c1 == '.' && c2 == 'c' && c3 == 's' && c4 == 'v'
  | _ => false

/-- Test whether `".csv"` occurs anywhere in the list. -/
def hasCsvL : List Char → Bool
  | [] => false
  | c :: cs => csvAt (c :: cs) || hasCsvL cs

/-- The replacement text `"-unique.csv"` as a character list. -/
def uniqueCsvL : List Char := "-unique.csv".data

/-- Python `s.replace('.csv', '-unique.csv')`: replace every non-overlapping
occurrence, scanning left to right. -/
def replCsvL : List Char → List Char
  | [] => []
  | [c] => [c]
  | [c1, c2] => [c1, c2]
  | [c1, c2, c3] => [c1, c2, c3]
  | c1 :: c2 :: c3 :: c4 :: cs =>
    if c1 == '.' && c2 == 'c' && c3 == 's' && c4 == 'v' then uniqueCsvL ++ replCsvL cs
    else c1 :: replCsvL (c2 :: c3 :: c4 :: cs)

/-- String-level wrapper: line 68 of `io.py`. -/
def replCsv (s : String) : String := ⟨replCsvL s.data⟩

/-- String-level occurrence test for `".csv"`. -/
def hasCsv (s : String) : Bool := hasCsvL s.data

/-- Lines 69-74: the write loop with its seen-set, applied to the lines read
from the input file (each line carries its newline, as in Python iteration). -/
def dedupeLoop : List String → List String → List String
  | [], _ => []
  | l :: ls, seen => if l ∈ seen then dedupeLoop ls seen else l :: dedupeLoop ls (l :: seen)

/-- Modelled from the spec: "containing only the first occurrence of each
exact line ... preserving original line order" — the first-occurrence
subsequence of the input lines, used to compare `dedupeLoop` against the
spec's description. -/
def firstOccurrenceLines (ls : List String) : List String :=
  ls.foldl (fun acc l => if l ∈ acc then acc else acc ++ [l]) []

/-- Observable file-system effect of one `remove_dupes` call: the derived
output path, the lines it holds afterwards, and the lines the input file
holds afterwards. -/
structure DedupeEffect where
  outPath : String
  outLines : List String
  inLinesAfter : List String
deriving DecidableEq

/-- Lines 66-74 of `io.py`: derive the output name by `.csv` replacement and
open it in write mode (truncating it) before reading the input.  When the
derived name equals the input path the truncation empties the input before a
single line is read, so nothing is written and the input contents are lost;
otherwise the input is read untouched and its deduplicated lines are written. -/
def remove_dupes (infile : String) (inLines : List String) : DedupeEffect :=
  let filename := replCsv infile
  if filename = infile then ⟨filename, [], []⟩
  else ⟨filename, dedupeLoop inLines [], inLines⟩

/-! ## Helper lemmas about the string primitives -/

/-- A split result is never the empty list. -/
theorem splitChL_ne_nil (sep : Char) (cs : List Char) : splitChL sep cs ≠ [] := by
  induction cs with
  | nil => simp [splitChL]
  | cons c cs ih =>
    simp only [splitChL]
    split
    · simp
    · cases h : splitChL sep cs with
      | nil => exact absurd h ih
      | cons f r => simp [consHead]

/-- Splitting a separator-free list yields a single chunk. -/
theorem splitChL_no_sep (sep : Char) (cs : List Char) (h : ∀ c ∈ cs, c ≠ sep) :
    splitChL sep cs = [cs] := by
  induction cs with
  | nil => rfl
  | cons c cs ih =>
    have hc : c ≠ sep := h c (by simp)
    simp only [splitChL, if_neg hc]
    rw [ih (fun x hx => h x (by simp [hx]))]
    rfl

/-- Splitting peels off a separator-free chunk before the first separator. -/
theorem splitChL_append (sep : Char) (a b : List Char) (h : ∀ c ∈ a, c ≠ sep) :
    splitChL sep (a ++ sep :: b) = a :: splitChL sep b := by
  induction a with
  | nil => simp [splitChL]
  | cons c a ih =>
    have hc : c ≠ sep := h c (by simp)
    simp only [List.cons_append, splitChL, if_neg hc, List.append_eq]
    rw [ih (fun x hx => h x (by simp [hx]))]
    rfl

/-- The number of chunks is one more than the number of separators. -/
theorem splitChL_length (sep : Char) (cs : List Char) :
    (splitChL sep cs).length = cs.count sep + 1 := by
  induction cs with
  | nil => simp [splitChL]
  | cons c cs ih =>
    simp only [splitChL]
    split
    · rename_i hc
      simp [List.count_cons, hc, ih]
    · rename_i hc
      cases h : splitChL sep cs with
      | nil => exact absurd h (splitChL_ne_nil sep cs)
      | cons f r =>
        simp only [consHead, List.length_cons]
        rw [h] at ih
        simp only [List.length_cons] at ih
        simp [List.count_cons, Ne.symm hc, ih]

/-- Comma-joining then comma-splitting recovers comma-free chunks. -/
theorem splitChL_joinCommaL (fs : List (List Char)) (hne : fs ≠ [])
    (h : ∀ f ∈ fs, ∀ c ∈ f, c ≠ ',') :
    splitChL ',' (joinCommaL fs) = fs := by
  induction fs with
  | nil => exact absurd rfl hne
  | cons a fs ih =>
    cases fs with
    | nil => exact splitChL_no_sep ',' a (fun c hc => h a (by simp) c hc)
    | cons b fs' =>
      rw [joinCommaL, splitChL_append ',' a _ (fun c hc => h a (by simp) c hc),
        ih (by simp) (fun f hf c hc => h f (by simp [hf]) c hc)]

/-- String-level version of `splitChL_joinCommaL`. -/
theorem pySplitComma_strJoinComma (fs : List String) (hne : fs ≠ [])
    (h : ∀ f ∈ fs, ',' ∉ f.data) : pySplitComma (strJoinComma fs) = fs := by
  show (splitChL ',' (joinCommaL (fs.map String.data))).map String.mk = fs
  rw [splitChL_joinCommaL (fs.map String.data) (by simpa using hne)
    (by intro f hf c hc
        obtain ⟨s, hs, rfl⟩ := List.mem_map.mp hf
        exact fun he => h s hs (he ▸ hc))]
  rw [List.map_map]
  exact List.map_id fs

/-- A separator-free string splits into itself. -/
theorem splitDashL_no_sep (cs : List Char) (h : hasDashL cs = false) :
    splitDashL cs = [cs] := by
  induction cs using splitDashL.induct with
  | case1 => rfl
  | case2 c => rfl
  | case3 c1 c2 => rfl
  | case4 c1 c2 c3 cs hd ih =>
    exfalso
    rw [hasDashL, Bool.or_eq_false_iff, dashAt] at h
    exact absurd hd (by simp [h.1])
  | case5 c1 c2 c3 cs hd ih =>
    rw [hasDashL, Bool.or_eq_false_iff] at h
    rw [splitDashL, if_neg (by simpa using hd), ih h.2]
    rfl

/-- Splitting a string that starts with the separator. -/
theorem splitDashL_sep (n : List Char) :
    splitDashL (' ' :: '-' :: ' ' :: n) = [] :: splitDashL n := by
  rw [splitDashL, if_pos (by decide)]

/-- Splitting peels off a chunk before the first `" - "` separator; the side
condition rules out a separator inside the chunk or straddling its end. -/
theorem splitDashL_append (p n : List Char) (h : hasDashL (p ++ [' ']) = false) :
    splitDashL (p ++ ' ' :: '-' :: ' ' :: n) = p :: splitDashL n := by
  induction p with
  | nil => simpa using splitDashL_sep n
  | cons c p ih =>
    rw [List.cons_append, hasDashL, Bool.or_eq_false_iff] at h
    obtain ⟨h1, h2⟩ := h
    rcases p with _ | ⟨d, _ | ⟨e, p'⟩⟩
    · rw [show ([c] : List Char) ++ ' ' :: '-' :: ' ' :: n
          = c :: ' ' :: '-' :: ' ' :: n from rfl,
        splitDashL,
        if_neg (by intro hco
                   simp only [Bool.and_eq_true, beq_iff_eq] at hco
                   exact absurd hco.1.2 (by decide)),
        splitDashL_sep n]
      rfl
    · rw [show ([d] : List Char) ++ [' '] = [d, ' '] from rfl, dashAt] at h1
      rw [show ([c, d] : List Char) ++ ' ' :: '-' :: ' ' :: n
          = c :: d :: ' ' :: ('-' :: ' ' :: n) from rfl,
        splitDashL, if_neg (by rw [h1]; exact Bool.false_ne_true)]
      have hi := ih h2
      rw [show ([d] : List Char) ++ ' ' :: '-' :: ' ' :: n
          = d :: ' ' :: '-' :: ' ' :: n from rfl] at hi
      rw [hi]
      rfl
    · rw [show ((d :: e :: p') : List Char) ++ [' ']
          = d :: e :: (p' ++ [' ']) from rfl, dashAt] at h1
      rw [show ((c :: d :: e :: p') : List Char) ++ ' ' :: '-' :: ' ' :: n
          = c :: d :: e :: (p' ++ ' ' :: '-' :: ' ' :: n) from rfl,
        splitDashL, if_neg (by rw [h1]; exact Bool.false_ne_true)]
      have hi := ih h2
      rw [show ((d :: e :: p') : List Char) ++ ' ' :: '-' :: ' ' :: n
          = d :: e :: (p' ++ ' ' :: '-' :: ' ' :: n) from rfl] at hi
      rw [hi]
      rfl

/-- Replacement is the identity when `".csv"` does not occur. -/
theorem replCsvL_no_occ (cs : List Char) (h : hasCsvL cs = false) : replCsvL cs = cs := by
  induction cs using replCsvL.induct with
  | case1 => rfl
  | case2 c => rfl
  | case3 c1 c2 => rfl
  | case4 c1 c2 c3 => rfl
  | case5 c1 c2 c3 c4 cs hd ih =>
    exfalso
    rw [hasCsvL, Bool.or_eq_false_iff, csvAt] at h
    exact absurd hd (by simp [h.1])
  | case6 c1 c2 c3 c4 cs hd ih =>
    rw [hasCsvL, Bool.or_eq_false_iff] at h
    rw [replCsvL, if_neg (by simpa using hd), ih h.2]

/-- Replacement never shortens the list. -/
theorem replCsvL_length_ge (cs : List Char) : cs.length ≤ (replCsvL cs).length := by
  induction cs using replCsvL.induct with
  | case1 => simp [replCsvL]
  | case2 c => simp [replCsvL]
  | case3 c1 c2 => simp [replCsvL]
  | case4 c1 c2 c3 => simp [replCsvL]
  | case5 c1 c2 c3 c4 cs hd ih =>
    rw [replCsvL, if_pos hd]
    have h11 : uniqueCsvL.length = 11 := by decide
    simp only [List.length_append, List.length_cons, h11]
    omega
  | case6 c1 c2 c3 c4 cs hd ih =>
    rw [replCsvL, if_neg hd]
    simp only [List.length_cons] at ih ⊢
    omega

/-- Replacement strictly lengthens a list in which `".csv"` occurs. -/
theorem replCsvL_length_gt (cs : List Char) (h : hasCsvL cs = true) :
    cs.length < (replCsvL cs).length := by
  induction cs using replCsvL.induct with
  | case1 => simp [hasCsvL] at h
  | case2 c => simp [hasCsvL, csvAt] at h
  | case3 c1 c2 => simp [hasCsvL, csvAt] at h
  | case4 c1 c2 c3 => simp [hasCsvL, csvAt] at h
  | case5 c1 c2 c3 c4 cs hd ih =>
    rw [replCsvL, if_pos hd]
    have hge := replCsvL_length_ge cs
    have h11 : uniqueCsvL.length = 11 := by decide
    simp only [List.length_append, List.length_cons, h11]
    omega
  | case6 c1 c2 c3 c4 cs hd ih =>
    rw [hasCsvL, Bool.or_eq_true] at h
    rcases h with h | h
    · rw [csvAt] at h
      exact absurd h hd
    · have := ih h
      rw [replCsvL, if_neg hd]
      simp only [List.length_cons] at this ⊢
      omega

/-- After a replacement the text `"-unique.csv"` occurs in the result. -/
theorem replCsvL_marker (cs : List Char) (h : hasCsvL cs = true) :
    ∃ a b, replCsvL cs = a ++ uniqueCsvL ++ b := by
  induction cs using replCsvL.induct with
  | case1 => simp [hasCsvL] at h
  | case2 c => simp [hasCsvL, csvAt] at h
  | case3 c1 c2 => simp [hasCsvL, csvAt] at h
  | case4 c1 c2 c3 => simp [hasCsvL, csvAt] at h
  | case5 c1 c2 c3 c4 cs hd ih =>
    rw [replCsvL, if_pos hd]
    exact ⟨[], replCsvL cs, by simp⟩
  | case6 c1 c2 c3 c4 cs hd ih =>
    rw [hasCsvL, Bool.or_eq_true] at h
    rcases h with h | h
    · rw [csvAt] at h
      exact absurd h hd
    · obtain ⟨a, b, hab⟩ := ih h
      rw [replCsvL, if_neg hd, hab]
      exact ⟨c1 :: a, b, by simp⟩

/-- When the name contains `".csv"` the derived output name differs from it. -/
theorem replCsv_ne (s : String) (h : hasCsv s = true) : replCsv s ≠ s := by
  intro he
  have hd : replCsvL s.data = s.data := congrArg String.data he
  have := replCsvL_length_gt s.data h
  rw [hd] at this
  omega

/-- When the name does not contain `".csv"` the derived output name is the
name itself. -/
theorem replCsv_eq (s : String) (h : hasCsv s = false) : replCsv s = s := by
  show (⟨replCsvL s.data⟩ : String) = s
  rw [replCsvL_no_occ s.data h]

/-- Soundness of the leftmost postal-code match: the input decomposes around
a comma followed by exactly six digits. -/
theorem findPostalL_sound (cs : List Char) (pre d rest : List Char)
    (h : findPostalL cs = some (pre, d, rest)) :
    cs = pre ++ ',' :: (d ++ rest) ∧ d.length = 6 ∧ d.all Char.isDigit = true := by
  induction cs generalizing pre d rest with
  | nil => simp [findPostalL] at h
  | cons c cs ih =>
    rw [findPostalL] at h
    split at h
    · rename_i hp
      simp only [postalAt, Bool.and_eq_true, beq_iff_eq] at hp
      obtain ⟨⟨hc, hlen⟩, hdig⟩ := hp
      simp only [Option.some.injEq, Prod.mk.injEq] at h
      obtain ⟨h1, h2, h3⟩ := h
      subst h1 h2 h3 hc
      refine ⟨by simp [List.take_append_drop], ?_, hdig⟩
      simpa using hlen
    · rename_i hp
      cases hf : findPostalL cs with
      | none => rw [hf] at h; simp at h
      | some t =>
        obtain ⟨pre', d', rest'⟩ := t
        rw [hf] at h
        simp only [Option.some.injEq, Prod.mk.injEq] at h
        obtain ⟨h1, h2, h3⟩ := h
        obtain ⟨hcs, hlen, hdig⟩ := ih pre' d' rest' hf
        subst h1 h2 h3
        exact ⟨by simp [hcs], hlen, hdig⟩

/-- The seen-set loop is the fold that keeps first occurrences. -/
theorem dedupeLoop_foldl (ls : List String) : ∀ (seen acc : List String),
    (∀ x, x ∈ seen ↔ x ∈ acc) →
    acc ++ dedupeLoop ls seen =
      ls.foldl (fun acc l => if l ∈ acc then acc else acc ++ [l]) acc := by
  induction ls with
  | nil => intro seen acc _; simp [dedupeLoop]
  | cons l ls ih =>
    intro seen acc h
    simp only [dedupeLoop, List.foldl_cons]
    by_cases hm : l ∈ seen
    · rw [if_pos hm, if_pos ((h l).mp hm)]
      exact ih seen acc h
    · rw [if_neg hm, if_neg (fun hx => hm ((h l).mpr hx))]
      have hstep := ih (l :: seen) (acc ++ [l]) (by intro x; simp [h x]; tauto)
      rw [← hstep]
      simp

/-- The write loop of `remove_dupes` computes the spec's first-occurrence
line sequence. -/
theorem dedupeLoop_eq_firstOccurrence (ls : List String) :
    dedupeLoop ls [] = firstOccurrenceLines ls := by
  have h := dedupeLoop_foldl ls [] [] (by simp)
  simpa [firstOccurrenceLines] using h

/-- Filtering away index 0 keeps an enumeration that starts at 1 intact. -/
theorem enumFrom_filter_ne_zero {α : Type} (l : List α) (n : Nat) (hn : n ≠ 0) :
    (List.enumFrom n l).filter (fun p => p.1 ≠ 0) = List.enumFrom n l := by
  induction l generalizing n with
  | nil => rfl
  | cons a l ih =>
    simp only [List.enumFrom_cons, List.filter_cons]
    rw [if_pos (by simpa using hn), ih (n + 1) (by omega)]

/-- Skipping index 0 of an enumerated list processes exactly its tail. -/
theorem enum_filter_map_snd {α : Type} (l : List α) :
    ((l.enum).filter (fun p => p.1 ≠ 0)).map (·.2) = l.drop 1 := by
  cases l with
  | nil => rfl
  | cons a l =>
    simp only [List.enum_cons, List.filter_cons]
    rw [if_neg (by simp)]
    rw [enumFrom_filter_ne_zero l 1 (by omega)]
    simp [List.enumFrom_map_snd]

/-- The city loop of `__scrape_cities` processes the dropdown values after
index 0, in their native order. -/
theorem bcProcessedCities_eq (opts : List DropOpt) :
    bcProcessedCities opts = (opts.map (·.value)).drop 1 := by
  unfold bcProcessedCities bcCityValues
  exact enum_filter_map_snd _

/-- The school loop of `__scrape_schools_in_city` processes the (text, value)
pairs after index 0, in their native order. -/
theorem bcProcessedSchools_eq (opts : List DropOpt) :
    bcProcessedSchools opts = (opts.map (fun o => (pyStrip o.text, o.value))).drop 1 := by
  unfold bcProcessedSchools bcSchoolPairs
  exact enum_filter_map_snd _

/-! ## Claim theorems -/

/-- C5: for every dropdown read by the navigator (BC cities, BC schools,
India states), the option at index 0 is excluded from enumeration by
position, regardless of its text or value: on options `o0 :: rest` the
entries iterated over are exactly those derived from `rest`, in order. -/
theorem claim_dropdown_skips_index_zero (o0 : DropOpt) (rest : List DropOpt) :
    bcProcessedCities (o0 :: rest) = rest.map (·.value) ∧
    bcProcessedSchools (o0 :: rest) = rest.map (fun o => (pyStrip o.text, o.value)) ∧
    indiaStateOptionsUsed (o0 :: rest) = rest := by
  refine ⟨?_, ?_, rfl⟩
  · rw [bcProcessedCities_eq]
    simp
  · rw [bcProcessedSchools_eq]
    simp

/-- Native-order dropdown used to refute the sorting claim for BC. -/
def bcCityOptsNative : List DropOpt :=
  [⟨"City", "City"⟩, ⟨"Victoria", "Victoria"⟩, ⟨"Kelowna", "Kelowna"⟩]

/-- C6 counterexample: the BC city enumeration keeps the dropdown's native
order — here it processes "Victoria" before "Kelowna" although
"Kelowna" < "Victoria" — so region processing order is not the sorted
order for both scrapers. -/
theorem claim_regions_sorted_cex :
    bcProcessedCities bcCityOptsNative = ["Victoria", "Kelowna"] ∧
    ¬ (("Victoria" : String) ≤ "Kelowna") := by
  constructor
  · decide
  · have hlt : ("Kelowna" : String) < "Victoria" := by
      rw [String.lt_iff_toList_lt]
      decide
    exact not_le.mpr hlt

/-- C6 amended: the India scraper returns its regions (states) sorted in
ascending order of title-cased display name, while the BC scraper processes
its regions (cities) in the dropdown's native order. -/
theorem claim_regions_order_amended :
    (∀ opts : List DropOpt,
      ((indiaStatesAndValues opts).map Prod.fst).Pairwise (· ≤ ·)) ∧
    (∀ (o0 : DropOpt) (rest : List DropOpt),
      bcProcessedCities (o0 :: rest) = rest.map (·.value)) := by
  constructor
  · intro opts
    have hs := List.sorted_insertionSort pairLe
      (pyDictOfPairs ((opts.drop 1).map (fun o => (pyTitle o.text, o.value))))
    unfold indiaStatesAndValues
    rw [List.pairwise_map]
    refine hs.imp ?_
    intro a b hab
    rcases hab with h | ⟨h, _⟩
    · exact le_of_lt h
    · exact le_of_eq h
  · intro o0 rest
    rw [bcProcessedCities_eq]
    simp

/-- C4 counterexample: a transient stale-element failure of the city-list
lookup produces a single attempt, an empty backoff-delay sequence and no
result — the lookup is not retried at all, so no strictly increasing delay
sequence exists. -/
theorem claim_retry_backoff_cex :
    (bcCitySelectLookup .staleElement).attempts = 1 ∧
    (bcCitySelectLookup .staleElement).backoffDelays = [] ∧
    (bcCitySelectLookup .staleElement).options = none :=
  ⟨rfl, rfl, rfl⟩

/-- C4 amended: the city-list lookup is attempted exactly once with no
backoff delays for every outcome; a transient stale-element failure and a
wrong-tag failure are each logged at critical severity instead of being
retried. -/
theorem claim_retry_backoff_amended :
    (∀ o : BCLookupOutcome, (bcCitySelectLookup o).attempts = 1 ∧
      (bcCitySelectLookup o).backoffDelays = []) ∧
    (bcCitySelectLookup .staleElement).criticalLogged = true ∧
    (bcCitySelectLookup .unexpectedTag).criticalLogged = true :=
  ⟨fun o => by cases o <;> exact ⟨rfl, rfl⟩, rfl, rfl⟩

/-- C2: a record is produced only when the extracted email is non-empty.
For BC, an empty post-`mailto:` href yields no record and no written line,
and any produced record has a non-empty email.  For India, a block whose
email field is empty after strip/lower makes `__scrape_schools` skip the
school (`some none`), and in all cases no line reaches the output file. -/
theorem claim_email_required (sn cn : String) (page : BCPage)
    (st s0 s1 nf cf af pf ef nc ec : String) :
    (pyDrop 7 page.emailHref = "" →
      bcExtract sn cn page = none ∧ bcWrittenLines sn cn page = []) ∧
    (∀ r : BCRecord, bcExtract sn cn page = some r → r.email ≠ "") ∧
    (pyColonField nf = some nc → pyColonField ef = some ec →
      pyLower (pyStrip ec) = "" →
      indiaExtract st [s0, s1, nf, cf, af, pf, ef] = some none ∧
      indiaWrittenLines st [s0, s1, nf, cf, af, pf, ef] = []) := by
  refine ⟨?_, ?_, ?_⟩
  · intro h
    have h1 : bcExtract sn cn page = none := by
      simp only [bcExtract]
      rw [if_pos h]
    exact ⟨h1, by simp [bcWrittenLines, h1]⟩
  · intro r hr
    simp only [bcExtract] at hr
    by_cases h : pyDrop 7 page.emailHref = ""
    · rw [if_pos h] at hr
      exact absurd hr (by simp)
    · rw [if_neg h] at hr
      obtain rfl := Option.some.inj hr
      exact h
  · intro h1 h2 h3
    refine ⟨?_, rfl⟩
    simp only [indiaExtract, List.getElem?_cons_zero, List.getElem?_cons_succ]
    rw [h1, h2]
    simp [h3]

/-- BC page whose mailto href carries no address after `mailto:`. -/
def emptyEmailPage : BCPage :=
  { emailHref := "mailto:", leftColText := "left", rightColText := "right" }

/-- C2 witness: concrete instances — a BC page with an empty mailto target
produces no record, and an India block with an empty `Email:` field produces
the skip signal. -/
theorem claim_email_required_witness :
    bcExtract "Sample School" "Victoria" emptyEmailPage = none ∧
    indiaExtract "Delhi" ["1", "x", "Name: A", "Head:B", "Address: C", "Phone:1", "Email:"]
      = some none := by
  constructor
  · exact ((claim_email_required "Sample School" "Victoria" emptyEmailPage
      "Delhi" "1" "x" "Name: A" "Head:B" "Address: C" "Phone:1" "Email:" " A" "").1
      (by decide)).1
  · exact ((claim_email_required "Sample School" "Victoria" emptyEmailPage
      "Delhi" "1" "x" "Name: A" "Head:B" "Address: C" "Phone:1" "Email:" " A" "").2.2
      (by decide) (by decide) (by decide)).1

/-- The example school block documented in the source comments of
`india_scraper.py` (lines 205-212). -/
def azaanBlock : List String :=
  ["1", "Affiliation No.130297", "Name: Azaan International School",
   "Head/Principal Name:Mrs.Perween Sultana Shikoh",
   "Address: 9-4-136, Seven Tombs road, Tolichowki, Hyderabad ,500008",
   "Phone No:,04064509370,04024413483", "Email:azaan.cbse@gmail.com"]

/-- The record the India scraper assembles for that block. -/
def azaanRec : IndiaRecord :=
  { school_id := "null", school_name := "Azaan International School",
    address := "9-4-136, Seven Tombs Road, Tolichowki, Hyderabad", city := "N/A",
    state := "Telangana", postal_code := "500008", schoolboard := "null",
    contact_name := "Mrs.Perween Sultana Shikoh", phone := "04064509370 04024413483",
    contact_position := "Principal", email := "azaan.cbse@gmail.com",
    timezone := "Asia/Kolkata", country := "IN" }

/-- C3: the India scraper accepts this block — it parses to a full record
with a non-empty email — yet appends no line to the output file, because the
write block (lines 242-248 of `india_scraper.py`) is commented out as a
`TODO` string; the claim that both scrapers persist every accepted record as
one line is violated by the India scraper. -/
theorem claim_accepted_record_written :
    indiaExtract "Telangana" azaanBlock = some (some azaanRec) ∧
    azaanRec.email = "azaan.cbse@gmail.com" ∧ azaanRec.email ≠ "" ∧
    indiaWrittenLines "Telangana" azaanBlock = [] :=
  ⟨by decide, rfl, by decide, rfl⟩

/-- C8: contact-person parsing.  An input `position ++ " - " ++ name` whose
parts contain no further separator (nor a straddling one at the position
boundary) splits into the trimmed position and trimmed contact name; an
input without the separator yields the asymmetric sentinels
(`"N/A"`, `""`). -/
theorem claim_contact_person_parse (p n s : String)
    (hp : hasDashL (p.data ++ [' ']) = false) (hn : hasDashL n.data = false)
    (hs : hasDashL s.data = false) :
    bcParseContact (p ++ " - " ++ n) = (pyStrip p, pyStrip n) ∧
    bcParseContact s = ("N/A", "") := by
  constructor
  · have hdata : (p ++ " - " ++ n).data = p.data ++ ' ' :: '-' :: ' ' :: n.data := by
      simp only [String.data_append]
      simp [List.append_assoc]
    simp only [bcParseContact]
    rw [hdata, splitDashL_append p.data n.data hp, splitDashL_no_sep n.data hn]
    rfl
  · simp only [bcParseContact]
    rw [splitDashL_no_sep s.data hs]
    rfl

/-- C8 witness: the spec's examples — "Principal - Jane Smith" and the
separator-free "Jane Smith". -/
theorem claim_contact_person_parse_witness :
    bcParseContact "Principal - Jane Smith" = ("Principal", "Jane Smith") ∧
    bcParseContact "Jane Smith" = ("N/A", "") := by
  have h := claim_contact_person_parse "Principal" "Jane Smith" "Jane Smith"
    (by decide) (by decide) (by decide)
  constructor
  · have h1 := h.1
    rw [show ("Principal" ++ " - " ++ "Jane Smith" : String) = "Principal - Jane Smith"
        by decide] at h1
    rw [h1]
    decide
  · rw [h.2]

/-- C7 counterexample: on the spec's own example the BC parser keeps only
the first comma component as address (not everything before the postal
code), and the India parser — whose postal pattern is a comma followed by
six digits — matches nothing here, keeping the whole string as address
rather than "N/A"; likewise an input with no postal-shaped token keeps its
address instead of "N/A". -/
theorem claim_address_parse_cex :
    bcParseAddress "123 Main St, Suite 4, Victoria, V8X1A1" = ("123 Main St", "V8X1A1") ∧
    ("123 Main St" : String) ≠ "123 Main St, Suite 4, Victoria" ∧
    indiaParseAddress "123 Main St, Suite 4, Victoria, V8X1A1"
      = ("123 Main St, Suite 4, Victoria, V8X1A1", "N/A") ∧
    indiaParseAddress "No Postal Token Here" = ("No Postal Token Here", "N/A") ∧
    ("No Postal Token Here" : String) ≠ "N/A" := by
  refine ⟨by decide, by decide, by decide, by decide, by decide⟩

/-- C7 amended: BC address parsing takes the first comma component
(trimmed) as address and the fourth (trimmed) as postal code, with both
sentinels exactly when the line has fewer than four comma components; India
address parsing splits at the leftmost comma-plus-six-digits token — the
input decomposes around it, the address is the trimmed text before it with a
trailing comma removed, the postal code is the six digits — and when no such
token occurs the address is the whole trimmed (comma-stripped) string while
only the postal code falls back to "N/A". -/
theorem claim_address_parse_amended :
    (∀ a b c d : String,
      (∀ ch ∈ a.data, ch ≠ ',') → (∀ ch ∈ b.data, ch ≠ ',') →
      (∀ ch ∈ c.data, ch ≠ ',') → (∀ ch ∈ d.data, ch ≠ ',') →
      bcParseAddress (a ++ "," ++ b ++ "," ++ c ++ "," ++ d) = (pyStrip a, pyStrip d)) ∧
    (∀ l : String, l.data.count ',' < 3 → bcParseAddress l = ("N/A", "N/A")) ∧
    (∀ (fa : String) (pre d rest : List Char),
      findPostalL fa.data = some (pre, d, rest) →
      fa.data = pre ++ ',' :: (d ++ rest) ∧ d.length = 6 ∧ d.all Char.isDigit = true ∧
      indiaParseAddress fa = (stripTrailingComma (pyStrip ⟨pre⟩), ⟨d⟩)) ∧
    (∀ fa : String, findPostalL fa.data = none →
      indiaParseAddress fa = (stripTrailingComma (pyStrip fa), "N/A")) := by
  refine ⟨?_, ?_, ?_, ?_⟩
  · intro a b c d ha hb hc hd
    simp only [bcParseAddress, pySplitComma]
    have hx : (a ++ "," ++ b ++ "," ++ c ++ "," ++ d).data
        = a.data ++ ',' :: (b.data ++ ',' :: (c.data ++ ',' :: d.data)) := by
      simp only [String.data_append]
      simp [List.append_assoc]
    rw [hx, splitChL_append ',' a.data _ ha, splitChL_append ',' b.data _ hb,
      splitChL_append ',' c.data _ hc, splitChL_no_sep ',' d.data hd]
    rfl
  · intro l hcount
    simp only [bcParseAddress]
    have hnone : (pySplitComma l)[3]? = none := by
      apply List.getElem?_eq_none
      simp only [pySplitComma, List.length_map, splitChL_length]
      omega
    rw [hnone]
  · intro fa pre d rest h
    obtain ⟨hdecomp, hlen, hdig⟩ := findPostalL_sound fa.data pre d rest h
    refine ⟨hdecomp, hlen, hdig, ?_⟩
    simp only [indiaParseAddress]
    rw [h]
  · intro fa h
    simp only [indiaParseAddress]
    rw [h]

/-- C7 witness: the amended BC clause applied to the spec's example
components, and the amended India clause applied to a matching input. -/
theorem claim_address_parse_witness :
    bcParseAddress ("123 Main St" ++ "," ++ " Suite 4" ++ "," ++ " Victoria" ++ "," ++ " V8X1A1")
      = ("123 Main St", "V8X1A1") ∧
    indiaParseAddress "Tombs Road, Hyderabad ,500008" = ("Tombs Road, Hyderabad", "500008") := by
  constructor
  · rw [claim_address_parse_amended.1 "123 Main St" " Suite 4" " Victoria" " V8X1A1"
      (by decide) (by decide) (by decide) (by decide)]
    decide
  · have h := (claim_address_parse_amended.2.2.1 "Tombs Road, Hyderabad ,500008"
      "Tombs Road, Hyderabad ".data "500008".data [] (by decide)).2.2.2
    rw [h]
    decide

/-- BC school page used to exhibit the written field order. -/
def cexPage : BCPage :=
  { emailHref := "mailto:info@sample.ca"
    leftColText := "\nSample School\n123 Main St, Suite 4, Victoria, V8X1A1\nPrincipal - Jane Smith\nx\ny\nz\nw"
    rightColText := "\n\n555-1234\n555-9999\nv" }

/-- C1 counterexample: the line the BC scraper writes for this page carries
the phone `"555-1234"` as its 9th comma-separated field and the contact
position `"Principal"` as its 10th — the claimed schema order
(..., contact_name, contact_position, phone, email, ...) puts the position
9th and the phone 10th, so the written order does not match it. -/
theorem claim_written_field_order_cex :
    bcWrittenLines "Sample School" "Victoria" cexPage =
      ["null,Sample School,123 Main St,Victoria,BC,V8X1A1,null,Jane Smith,555-1234,Principal,info@sample.ca,America/Vancouver,CA\n"] ∧
    pySplitComma "null,Sample School,123 Main St,Victoria,BC,V8X1A1,null,Jane Smith,555-1234,Principal,info@sample.ca,America/Vancouver,CA" =
      ["null", "Sample School", "123 Main St", "Victoria", "BC", "V8X1A1", "null",
       "Jane Smith", "555-1234", "Principal", "info@sample.ca", "America/Vancouver", "CA"] ∧
    (pySplitComma "null,Sample School,123 Main St,Victoria,BC,V8X1A1,null,Jane Smith,555-1234,Principal,info@sample.ca,America/Vancouver,CA")[8]?
      = some "555-1234" ∧
    ("555-1234" : String) ≠ "Principal" := by
  refine ⟨by decide, by decide, by decide, by decide⟩

/-- C1 amended: every written line has exactly 13 comma-separated fields
(whenever the field values are delimiter-free, per the spec's known
no-quoting limitation), in the order school_id, name, address, city,
region_code, postal_code, school_board, contact_name, phone,
contact_position, email, timezone, country_code — the phone precedes the
contact position, unlike the claimed schema. -/
theorem claim_written_field_order_amended (r : BCRecord)
    (h : ∀ f ∈ bcRow r, ',' ∉ f.data) :
    pySplitComma (strJoinComma (bcRow r)) = bcRow r ∧
    (bcRow r).length = 13 ∧
    bcCsvLine r = strJoinComma (bcRow r) ++ "\n" ∧
    (bcRow r)[7]? = some r.contact ∧ (bcRow r)[8]? = some r.phone ∧
    (bcRow r)[9]? = some r.position ∧ (bcRow r)[10]? = some r.email :=
  ⟨pySplitComma_strJoinComma (bcRow r) (by simp [bcRow]) h,
   rfl, rfl, rfl, rfl, rfl, rfl⟩

/-- Concrete record used to witness the amended field-order claim. -/
def cexRec : BCRecord :=
  { school := "null", name := "Sample School", address := "123 Main St",
    city := "Victoria", province := "BC", postal_code := "V8X1A1",
    schoolboard := "null", contact := "Jane Smith", phone := "555-1234",
    position := "Principal", email := "info@sample.ca",
    timezone := "America/Vancouver", country := "CA" }

/-- C1 witness: the amended claim applied to a concrete record. -/
theorem claim_written_field_order_witness :
    pySplitComma (strJoinComma (bcRow cexRec)) = bcRow cexRec ∧
    (bcRow cexRec).length = 13 :=
  ⟨(claim_written_field_order_amended cexRec (by decide)).1,
   (claim_written_field_order_amended cexRec (by decide)).2.1⟩

/-- Test whether the list starts with `"-unique"`. -/
def uniqAt : List Char → Bool
  | c1 :: c2 :: c3 :: c4 :: c5 :: c6 :: c7 :: _ =>
    c1 == '-' && c2 == 'u' && c3 == 'n' && c4 == 'i' && c5 == 'q' && c6 == 'u' && c7 == 'e'
  | _ => false

/-- Test whether `"-unique"` occurs anywhere in the list. -/
def hasUniqL : List Char → Bool
  | [] => false
  | c :: cs => uniqAt (c :: cs) || hasUniqL cs

/-- String-level `"-unique"` marker test. -/
def hasUniqueMarker (s : String) : Bool := hasUniqL s.data

/-- Any list embedding the replacement text contains the marker. -/
theorem hasUniqL_append_marker (a b : List Char) :
    hasUniqL (a ++ uniqueCsvL ++ b) = true := by
  induction a with
  | nil =>
    rw [List.nil_append]
    rfl
  | cons c a ih =>
    rw [List.cons_append]
    show (uniqAt (c :: (a ++ uniqueCsvL ++ b)) || hasUniqL (a ++ uniqueCsvL ++ b)) = true
    rw [ih]
    simp

/-- Input lines for the dedup examples (each line keeps its newline, as
Python file iteration yields them). -/
def dupLines : List String := ["A\n", "B\n", "A\n", "C\n"]

/-- C9 counterexample: on an input path without `".csv"` the derived output
path is the input path itself — it carries no `-unique` marker — and the
call empties the input file, so neither the sibling-file property nor the
input-preservation property of the claim holds for every input file. -/
theorem claim_dedupe_cex :
    (remove_dupes "data" dupLines).outPath = "data" ∧
    hasUniqueMarker (remove_dupes "data" dupLines).outPath = false ∧
    (remove_dupes "data" dupLines).inLinesAfter = [] ∧
    dupLines ≠ [] := by
  refine ⟨by decide, by decide, by decide, by decide⟩

/-- C9 amended: for every input path whose name contains `".csv"` (the case
of every scraper-produced output file), `remove_dupes` writes to a distinct
sibling path carrying the `-unique` marker, that file holds exactly the
first occurrence of each distinct input line in first-occurrence order, and
the input file is left unchanged. -/
theorem claim_dedupe_amended (infile : String) (inLines : List String)
    (h : hasCsv infile = true) :
    (remove_dupes infile inLines).outPath ≠ infile ∧
    hasUniqueMarker (remove_dupes infile inLines).outPath = true ∧
    (remove_dupes infile inLines).outLines = firstOccurrenceLines inLines ∧
    (remove_dupes infile inLines).inLinesAfter = inLines := by
  have hne : replCsv infile ≠ infile := replCsv_ne infile h
  simp only [remove_dupes]
  rw [if_neg hne]
  refine ⟨hne, ?_, dedupeLoop_eq_firstOccurrence inLines, rfl⟩
  obtain ⟨a, b, hab⟩ := replCsvL_marker infile.data h
  show hasUniqL (replCsvL infile.data) = true
  rw [hab]
  exact hasUniqL_append_marker a b

/-- C9 witness: the amended claim applied to a `.csv` path and the spec's
`[A, B, A, C]` example. -/
theorem claim_dedupe_witness :
    hasCsv "schools.csv" = true ∧
    (remove_dupes "schools.csv" dupLines).outPath = "schools-unique.csv" ∧
    (remove_dupes "schools.csv" dupLines).outLines = ["A\n", "B\n", "C\n"] ∧
    (remove_dupes "schools.csv" dupLines).inLinesAfter = dupLines := by
  refine ⟨by decide, by decide, ?_,
    (claim_dedupe_amended "schools.csv" dupLines (by decide)).2.2.2⟩
  rw [(claim_dedupe_amended "schools.csv" dupLines (by decide)).2.2.1]
  decide

/-- C10: for every input path whose name does not contain `".csv"`, the
derived output path is the input path itself, and because that path is
opened for writing (truncated) before the input is read, after the call the
file is empty: its original contents are lost and nothing is written. -/
theorem claim_noncsv_selfclobber (infile : String) (inLines : List String)
    (h : hasCsv infile = false) :
    (remove_dupes infile inLines).outPath = infile ∧
    (remove_dupes infile inLines).outLines = [] ∧
    (remove_dupes infile inLines).inLinesAfter = [] := by
  have heq : replCsv infile = infile := replCsv_eq infile h
  simp only [remove_dupes]
  rw [if_pos heq]
  exact ⟨heq, rfl, rfl⟩

/-- C10 witness: the claim applied to the path "data" with two input lines. -/
theorem claim_noncsv_selfclobber_witness :
    hasCsv "data" = false ∧ remove_dupes "data" ["X\n", "Y\n"] = ⟨"data", [], []⟩ := by
  refine ⟨by decide, ?_⟩
  have h := claim_noncsv_selfclobber "data" ["X\n", "Y\n"] (by decide)
  calc remove_dupes "data" ["X\n", "Y\n"]
      = ⟨(remove_dupes "data" ["X\n", "Y\n"]).outPath,
         (remove_dupes "data" ["X\n", "Y\n"]).outLines,
         (remove_dupes "data" ["X\n", "Y\n"]).inLinesAfter⟩ := rfl
    _ = ⟨"data", [], []⟩ := by rw [h.1, h.2.1, h.2.2]
